import Mathlib

set_option maxRecDepth 8000
set_option allowUnsafeReducibility true

namespace ChessEngine

/-- Chess piece types, mirroring `PieceType` in chess_engine/board/board.py. -/
inductive PieceType
  | pawn
  | knight
  | bishop
  | rook
  | queen
  | king
deriving DecidableEq, Repr, Fintype

/-- Chess colors, mirroring `Color` in chess_engine/board/board.py. -/
inductive Color
  | white
  | black
deriving DecidableEq, Repr, Fintype

/-- The expression `Color.BLACK if color == Color.WHITE else Color.WHITE` used
throughout board.py. -/
def Color.other : Color → Color
  | .white => .black
  | .black => .white

/-- A board square, mirroring `Square` in board.py: an optional piece type and an
optional color.  The Python attribute `empty` is assigned at construction as
`piece_type is None` and every constructor call passes the two fields together,
so it is modelled as the computed predicate `Square.empty`. -/
structure Square where
  piece_type : Option PieceType
  color : Option Color
deriving DecidableEq, Repr, Fintype

/-- The stored `empty` flag of a Square (`piece_type is None`). -/
def Square.empty (s : Square) : Bool := s.piece_type.isNone

/-- The result of the bare constructor call `Square()`. -/
def Square.blank : Square := ⟨none, none⟩

/-- The constructor call `Square(piece_type, color)` with both arguments present. -/
def mkSquare (pt : PieceType) (c : Color) : Square := ⟨some pt, some c⟩

/-- A chess move, mirroring `Move` in board.py.  Squares are (file, rank) pairs of
Python ints; the class performs no validation of its fields. -/
structure Move where
  from_square : Int × Int
  to_square : Int × Int
  piece_type : PieceType
  color : Color
  promotion : Option PieceType := none
  is_castling : Bool := false
  is_en_passant : Bool := false
  is_capture : Bool := false
deriving DecidableEq, Repr

/-- The castling-rights dictionary of board.py with keys K, Q, k, q. -/
structure CastlingRights where
  K : Bool
  Q : Bool
  k : Bool
  q : Bool
deriving DecidableEq, Repr

/-- The per-move state snapshot pushed on `position_history` by `make_move`
(the `board_state` dict in board.py, holding a deep copy of the board and the
five scalar fields). -/
structure Snapshot where
  board : List (List Square)
  castling_rights : CastlingRights
  en_passant_target : Option (Int × Int)
  halfmove_clock : Int
  fullmove_number : Int
  current_player : Color
deriving DecidableEq, Repr

/-- The mutable state of `ChessBoard` in board.py. -/
structure ChessBoard where
  board : List (List Square)
  current_player : Color
  castling_rights : CastlingRights
  en_passant_target : Option (Int × Int)
  halfmove_clock : Int
  fullmove_number : Int
  move_history : List Move
  position_history : List Snapshot
deriving DecidableEq, Repr

/-- In-range read `self.board[rank][file]`.  The source only performs this read
with both indices in 0..7 on the 8 by 8 grid, so the blank default is never
reached on well-formed boards. -/
def boardAt (b : List (List Square)) (file rank : Int) : Square :=
  if 0 ≤ file ∧ 0 ≤ rank then
    ((b[rank.toNat]?).bind fun row => row[file.toNat]?).getD Square.blank
  else Square.blank

/-- In-range write `self.board[rank][file] = s`; a no-op off the grid (the source
only writes with indices in 0..7 on the 8 by 8 grid). -/
def boardSet (b : List (List Square)) (file rank : Int) (s : Square) :
    List (List Square) :=
  if 0 ≤ file ∧ 0 ≤ rank then
    match b[rank.toNat]? with
    | some row => b.set rank.toNat (row.set file.toNat s)
    | none => b
  else b

/-- `ChessBoard._is_valid_square`. -/
def is_valid_square (sq : Int × Int) : Bool :=
  decide (0 ≤ sq.1 ∧ sq.1 < 8 ∧ 0 ≤ sq.2 ∧ sq.2 < 8)

/-- `ChessBoard.get_piece`: the square at the coordinate, or none (Python None)
when the coordinate is off the board. -/
def get_piece (cb : ChessBoard) (sq : Int × Int) : Option Square :=
  if is_valid_square sq then some (boardAt cb.board sq.1 sq.2) else none

/-- `range(8)` as Python ints. -/
def range8 : List Int := [0, 1, 2, 3, 4, 5, 6, 7]

/-- The rank-major, file-minor scan order `for rank in range(8): for file in range(8)`
used by every full-board loop in the source, as a list of (file, rank) pairs. -/
def scanCoords : List (Int × Int) :=
  (range8.map (fun r => range8.map (fun f => (f, r)))).flatten

/-- `ChessBoard._char_to_piece`; none models the KeyError on an unknown character. -/
def char_to_piece (c : Char) : Option (PieceType × Color) :=
  match c with
  | 'P' => some (.pawn, .white)
  | 'N' => some (.knight, .white)
  | 'B' => some (.bishop, .white)
  | 'R' => some (.rook, .white)
  | 'Q' => some (.queen, .white)
  | 'K' => some (.king, .white)
  | 'p' => some (.pawn, .black)
  | 'n' => some (.knight, .black)
  | 'b' => some (.bishop, .black)
  | 'r' => some (.rook, .black)
  | 'q' => some (.queen, .black)
  | 'k' => some (.king, .black)
  | _ => none

/-- The character loop of `ChessBoard._load_from_fen` over the piece-placement
field; none models the exceptions escaping the constructor (KeyError from
`_char_to_piece`, IndexError from an out-of-range board write). -/
def parseBoardChars : List Char → Int → Int → List (List Square) →
    Option (List (List Square))
  | [], _, _, b => some b
  | c :: rest, rank, file, b =>
    if c = '/' then parseBoardChars rest (rank + 1) 0 b
    else if c.isDigit then parseBoardChars rest rank (file + (c.toNat - '0'.toNat)) b
    else
      match char_to_piece c with
      | some (pt, col) =>
        if 0 ≤ rank ∧ rank < 8 ∧ 0 ≤ file ∧ file < 8 then
          parseBoardChars rest rank (file + 1) (boardSet b file rank (mkSquare pt col))
        else none
      | none => none

/-- Helper for Python str.split(): accumulate the current word (reversed) while
splitting on space runs. -/
def wordsAux : List Char → List Char → List (List Char)
  | [], acc => if acc.isEmpty then [] else [acc.reverse]
  | c :: rest, acc =>
    if c = ' ' then
      if acc.isEmpty then wordsAux rest [] else acc.reverse :: wordsAux rest []
    else wordsAux rest (c :: acc)

/-- Python `fen.split()`: whitespace-separated fields with empty fields dropped. -/
def fenFields (s : String) : List String :=
  (wordsAux s.toList []).map fun cs => String.mk cs

/-- Digit-run accumulator for Python int(). -/
def digitsValAux : List Char → Nat → Option Nat
  | [], acc => some acc
  | c :: rest, acc =>
    if c.isDigit then digitsValAux rest (acc * 10 + (c.toNat - '0'.toNat)) else none

/-- Python `int(s)` on a clock field: an optional sign followed by digits; none
models the ValueError on anything else. -/
def parseIntStr (s : String) : Option Int :=
  match s.toList with
  | [] => none
  | '-' :: rest =>
    match rest with
    | [] => none
    | _ => (digitsValAux rest 0).map fun n => -(n : Int)
  | '+' :: rest =>
    match rest with
    | [] => none
    | _ => (digitsValAux rest 0).map fun n => (n : Int)
  | cs => (digitsValAux cs 0).map fun n => (n : Int)

/-- Parsing of the en-passant field `parts[3]`; some none is the `-` branch, and
none models int() or indexing failures on malformed input. -/
def parseEpField (s : String) : Option (Option (Int × Int)) :=
  if s = "-" then some none
  else
    match s.toList with
    | c0 :: c1 :: _ =>
      if c1.isDigit then
        some (some ((c0.toNat : Int) - ('a'.toNat : Int), 8 - ((c1.toNat - '0'.toNat : Nat) : Int)))
      else none
    | _ => none

/-- `ChessBoard.__init__` followed by `_load_from_fen`: parse a FEN string into a
fresh board with empty histories.  none models the ValueError on a wrong field
count and every exception escaping the parse. -/
def chess_board_from_fen (fen : String) : Option ChessBoard :=
  let parts := fenFields fen
  match parts with
  | [p0, p1, p2, p3, p4, p5] => do
    let emptyGrid := List.replicate 8 (List.replicate 8 Square.blank)
    let b ← parseBoardChars p0.toList 0 0 emptyGrid
    let ep ← parseEpField p3
    let hm ← parseIntStr p4
    let fm ← parseIntStr p5
    pure
      { board := b
        current_player := if p1 = "w" then Color.white else Color.black
        castling_rights :=
          ⟨p2.toList.contains 'K', p2.toList.contains 'Q',
           p2.toList.contains 'k', p2.toList.contains 'q'⟩
        en_passant_target := ep
        halfmove_clock := hm
        fullmove_number := fm
        move_history := []
        position_history := [] }
  | _ => none

/-- `Square.__str__`: the FEN character of a square, with the dot for an empty
square and the question mark fallback of the symbol dictionary. -/
def squareChar (s : Square) : Char :=
  if s.empty then '.'
  else
    match s.piece_type, s.color with
    | some .pawn, some .white => 'P'
    | some .knight, some .white => 'N'
    | some .bishop, some .white => 'B'
    | some .rook, some .white => 'R'
    | some .queen, some .white => 'Q'
    | some .king, some .white => 'K'
    | some .pawn, some .black => 'p'
    | some .knight, some .black => 'n'
    | some .bishop, some .black => 'b'
    | some .rook, some .black => 'r'
    | some .queen, some .black => 'q'
    | some .king, some .black => 'k'
    | _, _ => '?'

/-- One rank of `ChessBoard._get_fen`: the file loop with its running
empty-square counter. -/
def fenRank (b : List (List Square)) (r : Int) : String :=
  let step := fun (acc : String × Nat) (f : Int) =>
    let sq := boardAt b f r
    if sq.empty then (acc.1, acc.2 + 1)
    else
      (acc.1 ++ (if acc.2 > 0 then toString acc.2 else "") ++
        String.singleton (squareChar sq), 0)
  let res := range8.foldl step ("", 0)
  res.1 ++ (if res.2 > 0 then toString res.2 else "")

/-- `ChessBoard._get_fen`: serialize the current state to FEN. -/
def get_fen (cb : ChessBoard) : String :=
  let board_fen := String.intercalate "/" (range8.map (fun r => fenRank cb.board r))
  let active := if cb.current_player = .white then "w" else "b"
  let castling :=
    (if cb.castling_rights.K then "K" else "") ++
    (if cb.castling_rights.Q then "Q" else "") ++
    (if cb.castling_rights.k then "k" else "") ++
    (if cb.castling_rights.q then "q" else "")
  let castling := if castling = "" then "-" else castling
  let ep :=
    match cb.en_passant_target with
    | some (f, r) => String.singleton (Char.ofNat (97 + f.toNat)) ++ toString (8 - r)
    | none => "-"
  board_fen ++ " " ++ active ++ " " ++ castling ++ " " ++ ep ++ " " ++
    toString cb.halfmove_clock ++ " " ++ toString cb.fullmove_number

/-- `ChessBoard._is_diagonal_clear`: the path between the two squares is a clear
diagonal (endpoints excluded, loop over the strictly intermediate squares). -/
def is_diagonal_clear (b : List (List Square)) (fromPos toPos : Int × Int) : Bool :=
  let df := (toPos.1 - fromPos.1).natAbs
  let dr := (toPos.2 - fromPos.2).natAbs
  if df ≠ dr then false
  else
    let fileStep : Int := if toPos.1 > fromPos.1 then 1 else -1
    let rankStep : Int := if toPos.2 > fromPos.2 then 1 else -1
    ((List.range df).drop 1).all fun i =>
      (boardAt b (fromPos.1 + fileStep * i) (fromPos.2 + rankStep * i)).empty

/-- `ChessBoard._is_straight_clear`: the path between the two squares is a clear
rank or file (endpoints excluded). -/
def is_straight_clear (b : List (List Square)) (fromPos toPos : Int × Int) : Bool :=
  if fromPos.1 ≠ toPos.1 ∧ fromPos.2 ≠ toPos.2 then false
  else if fromPos.1 = toPos.1 then
    let lo := min fromPos.2 toPos.2
    let hi := max fromPos.2 toPos.2
    (List.range (hi - lo - 1).toNat).all fun i =>
      (boardAt b fromPos.1 (lo + 1 + i)).empty
  else
    let lo := min fromPos.1 toPos.1
    let hi := max fromPos.1 toPos.1
    (List.range (hi - lo - 1).toNat).all fun i =>
      (boardAt b (lo + 1 + i) fromPos.2).empty

/-- `ChessBoard._can_piece_attack`: whether a piece of the given type standing on
fromPos attacks toPos on this board.  The pawn branch reads the attacking color
from the board. -/
def can_piece_attack (b : List (List Square)) (pt : PieceType)
    (fromPos toPos : Int × Int) : Bool :=
  match pt with
  | .pawn =>
    let piece := boardAt b fromPos.1 fromPos.2
    if piece.color = some .white then
      decide (fromPos.2 - 1 = toPos.2 ∧ (fromPos.1 - toPos.1).natAbs = 1)
    else
      decide (fromPos.2 + 1 = toPos.2 ∧ (fromPos.1 - toPos.1).natAbs = 1)
  | .knight =>
    let df := (fromPos.1 - toPos.1).natAbs
    let dr := (fromPos.2 - toPos.2).natAbs
    decide ((df = 2 ∧ dr = 1) ∨ (df = 1 ∧ dr = 2))
  | .bishop => is_diagonal_clear b fromPos toPos
  | .rook => is_straight_clear b fromPos toPos
  | .queen => is_diagonal_clear b fromPos toPos || is_straight_clear b fromPos toPos
  | .king =>
    let df := (fromPos.1 - toPos.1).natAbs
    let dr := (fromPos.2 - toPos.2).natAbs
    decide (df ≤ 1 ∧ dr ≤ 1 ∧ (df ≠ 0 ∨ dr ≠ 0))

/-- The king-locating scan shared by `is_check`, `_evaluate_king_safety` and
`_evaluate_development`: first (file, rank) in rank-major order holding a king of
the color, none when absent. -/
def find_king (cb : ChessBoard) (c : Color) : Option (Int × Int) :=
  scanCoords.find? fun p =>
    let sq := boardAt cb.board p.1 p.2
    decide (sq.piece_type = some .king ∧ sq.color = some c)

/-- `ChessBoard.is_check`: false when no king of the color is found, otherwise
whether any opposing piece attacks the king square. -/
def is_check (cb : ChessBoard) (c : Color) : Bool :=
  match find_king cb c with
  | none => false
  | some kingPos =>
    let opponent := c.other
    scanCoords.any fun p =>
      let sq := boardAt cb.board p.1 p.2
      !sq.empty && decide (sq.color = some opponent) &&
        (match sq.piece_type with
         | some pt => can_piece_attack cb.board pt p kingPos
         | none => false)

/-- One move object built the way board.py builds them in its pseudo-move
generators. -/
def mkMove (fromSq toSq : Int × Int) (pt : PieceType) (c : Color)
    (promotion : Option PieceType) (is_castling is_en_passant is_capture : Bool) :
    Move :=
  { from_square := fromSq, to_square := toSq, piece_type := pt, color := c
    promotion := promotion, is_castling := is_castling
    is_en_passant := is_en_passant, is_capture := is_capture }

/-- `ChessBoard._generate_pawn_pseudo_moves` (no promotion, no en passant).
The Python loop variable new_rank is reassigned to the double-push rank inside
the start-rank branch, so the subsequent captures loop reads the reassigned
value; cap_rank reproduces that mutation. -/
def bd_pawn_pseudo (cb : ChessBoard) (sq : Int × Int) (c : Color) : List Move :=
  let (file, rank) := sq
  let direction : Int := if c = .white then -1 else 1
  let start_rank : Int := if c = .white then 6 else 1
  let new_rank := rank + direction
  if 0 ≤ new_rank ∧ new_rank < 8 then
    let fwdEmpty := (boardAt cb.board file new_rank).empty
    let forward :=
      if fwdEmpty then
        mkMove (file, rank) (file, new_rank) .pawn c none false false false ::
          (let new_rank2 := rank + 2 * direction
           if rank = start_rank ∧ 0 ≤ new_rank2 ∧ new_rank2 < 8 ∧
               (boardAt cb.board file new_rank2).empty = true then
             [mkMove (file, rank) (file, new_rank2) .pawn c none false false false]
           else [])
      else []
    let cap_rank := if fwdEmpty = true ∧ rank = start_rank then rank + 2 * direction else new_rank
    let captures := ([-1, 1] : List Int).flatMap fun off =>
      let new_file := file + off
      if 0 ≤ new_file ∧ new_file < 8 then
        let target := boardAt cb.board new_file cap_rank
        if ¬ target.empty ∧ target.color ≠ some c then
          [mkMove (file, rank) (new_file, cap_rank) .pawn c none false false true]
        else []
      else []
    forward ++ captures
  else []

/-- The knight offset table shared by board.py and move_generator.py. -/
def knightOffsets : List (Int × Int) :=
  [(-2, -1), (-2, 1), (-1, -2), (-1, 2), (1, -2), (1, 2), (2, -1), (2, 1)]

/-- The king offset table shared by board.py and move_generator.py. -/
def kingOffsets : List (Int × Int) :=
  [(-1, -1), (-1, 0), (-1, 1), (0, -1), (0, 1), (1, -1), (1, 0), (1, 1)]

/-- The fixed-offset generation body shared by the knight and king generators:
destination on the board and empty or enemy occupied. -/
def offsetMoves (cb : ChessBoard) (sq : Int × Int) (c : Color) (pt : PieceType)
    (offsets : List (Int × Int)) : List Move :=
  offsets.flatMap fun off =>
    let new_file := sq.1 + off.1
    let new_rank := sq.2 + off.2
    if 0 ≤ new_file ∧ new_file < 8 ∧ 0 ≤ new_rank ∧ new_rank < 8 then
      let target := boardAt cb.board new_file new_rank
      if target.empty ∨ target.color ≠ some c then
        [mkMove sq (new_file, new_rank) pt c none false false (!target.empty)]
      else []
    else []

/-- One ray of the sliding generation loop `for distance in range(1, 8)` shared by
`_generate_sliding_moves` in board.py and the rook, diagonal and queen generators
in move_generator.py: stops at the edge, at an own piece, or just after a
capture. -/
def slideRay (cb : ChessBoard) (sq : Int × Int) (c : Color) (pt : PieceType)
    (dir : Int × Int) : Nat → Int → List Move
  | 0, _ => []
  | fuel + 1, distance =>
    let new_file := sq.1 + dir.1 * distance
    let new_rank := sq.2 + dir.2 * distance
    if 0 ≤ new_file ∧ new_file < 8 ∧ 0 ≤ new_rank ∧ new_rank < 8 then
      let target := boardAt cb.board new_file new_rank
      if target.empty then
        mkMove sq (new_file, new_rank) pt c none false false false ::
          slideRay cb sq c pt dir fuel (distance + 1)
      else if target.color ≠ some c then
        [mkMove sq (new_file, new_rank) pt c none false false true]
      else []
    else []

/-- Sliding-piece generation over a direction set (range(1, 8) gives seven steps
per ray). -/
def slidingMoves (cb : ChessBoard) (sq : Int × Int) (c : Color) (pt : PieceType)
    (dirs : List (Int × Int)) : List Move :=
  dirs.flatMap fun dir => slideRay cb sq c pt dir 7 1

/-- The rook direction set of board.py and move_generator.py. -/
def rookDirs : List (Int × Int) := [(0, 1), (0, -1), (1, 0), (-1, 0)]

/-- The bishop direction set of board.py and move_generator.py. -/
def bishopDirs : List (Int × Int) := [(1, 1), (1, -1), (-1, 1), (-1, -1)]

/-- The queen direction set of `_generate_queen_pseudo_moves` in board.py. -/
def queenDirs : List (Int × Int) :=
  [(0, 1), (0, -1), (1, 0), (-1, 0), (1, 1), (1, -1), (-1, 1), (-1, -1)]

/-- `ChessBoard._generate_pseudo_legal_moves_for_piece`: dispatch on the piece
type of the square (pseudo-legal, no check filtering, no castling, no promotion,
no en passant). -/
def bd_pseudo_for_piece (cb : ChessBoard) (sq : Int × Int) (piece : Square) :
    List Move :=
  match piece.piece_type, piece.color with
  | some .pawn, some c => bd_pawn_pseudo cb sq c
  | some .knight, some c => offsetMoves cb sq c .knight knightOffsets
  | some .bishop, some c => slidingMoves cb sq c .bishop bishopDirs
  | some .rook, some c => slidingMoves cb sq c .rook rookDirs
  | some .queen, some c => slidingMoves cb sq c .queen queenDirs
  | some .king, some c => offsetMoves cb sq c .king kingOffsets
  | _, _ => []

/-- The snapshot push at the start of the mutating phase of `make_move`
(the deep copy of the board and the five scalar fields appended to
`position_history`). -/
def push_snapshot (cb : ChessBoard) : ChessBoard :=
  { cb with
    position_history :=
      { board := cb.board
        castling_rights := cb.castling_rights
        en_passant_target := cb.en_passant_target
        halfmove_clock := cb.halfmove_clock
        fullmove_number := cb.fullmove_number
        current_player := cb.current_player } :: cb.position_history }

/-- Python list index resolution `l[i]` for a list of the given length: in-range
and negative indices resolve to a position, anything else raises (none). -/
def pyIndex (len : Nat) (i : Int) : Option Nat :=
  if 0 ≤ i ∧ i < (len : Int) then some i.toNat
  else if -(len : Int) ≤ i ∧ i < 0 then some (i + len).toNat
  else none

/-- The en-passant block of `make_move`: read the captured pawn at
`board[to_rank +- 1][to_file]` with Python indexing (negative indices wrap and
an index past the end raises, modelled as none) and blank that square. -/
def ep_capture_step (cb : ChessBoard) (m : Move) :
    Option (Square × List (List Square)) :=
  match pyIndex cb.board.length
      (if cb.current_player = .white then m.to_square.2 + 1
       else m.to_square.2 - 1) with
  | none => none
  | some rIdx =>
    match cb.board[rIdx]? with
    | none => none
    | some row =>
      match pyIndex row.length m.to_square.1 with
      | none => none
      | some fIdx =>
        match row[fIdx]? with
        | none => none
        | some captured =>
          some (captured, cb.board.set rIdx (row.set fIdx Square.blank))

/-- `ChessBoard._update_castling_rights`: king moves clear both own flags, rook
moves from a corner clear one flag, and a capture onto a corner clears the
matching flag. -/
def update_castling_rights (m : Move) (cr : CastlingRights) : CastlingRights :=
  let cr :=
    if m.piece_type = .king then
      if m.color = .white then { cr with K := false, Q := false }
      else { cr with k := false, q := false }
    else if m.piece_type = .rook then
      if m.color = .white then
        if m.from_square = (0, 7) then { cr with Q := false }
        else if m.from_square = (7, 7) then { cr with K := false }
        else cr
      else
        if m.from_square = (0, 0) then { cr with q := false }
        else if m.from_square = (7, 0) then { cr with k := false }
        else cr
    else cr
  if m.is_capture then
    if m.to_square = (0, 0) then { cr with q := false }
    else if m.to_square = (7, 0) then { cr with k := false }
    else if m.to_square = (0, 7) then { cr with Q := false }
    else if m.to_square = (7, 7) then { cr with K := false }
    else cr
  else cr

/-- `ChessBoard._update_en_passant_target`: cleared on every move, then set
behind the destination of a pawn move that changed rank by exactly two. -/
def ep_target_update (m : Move) : Option (Int × Int) :=
  if m.piece_type = .pawn then
    if (m.to_square.2 - m.from_square.2).natAbs = 2 then
      if m.color = .white then some (m.to_square.1, m.to_square.2 + 1)
      else some (m.to_square.1, m.to_square.2 - 1)
    else none
  else none

/-- `ChessBoard.undo_move`: false on an empty history, otherwise pop the last
move and snapshot and restore every mutable field. -/
def undo_move (cb : ChessBoard) : Bool × ChessBoard :=
  match cb.move_history, cb.position_history with
  | _ :: mh, s :: ph =>
    (true,
      { board := s.board
        current_player := s.current_player
        castling_rights := s.castling_rights
        en_passant_target := s.en_passant_target
        halfmove_clock := s.halfmove_clock
        fullmove_number := s.fullmove_number
        move_history := mh
        position_history := ph })
  | _, _ => (false, cb)

/-- The capture bookkeeping at the start of the mutating phase of `make_move`:
the en-passant branch (none when its row lookup raises), the regular-capture
read of the destination square, or no capture; paired with the board after the
en-passant pawn removal. -/
def capture_bookkeeping (cb1 : ChessBoard) (m : Move) :
    Option (Option Square × List (List Square)) :=
  if m.is_en_passant then
    (ep_capture_step cb1 m).map fun pr => (some pr.1, pr.2)
  else if m.is_capture then
    some (some (boardAt cb1.board m.to_square.1 m.to_square.2), cb1.board)
  else some (none, cb1.board)

/-- The mutating phase of `make_move` after the snapshot push: en-passant or
regular capture bookkeeping, castling rook relocation, piece move, promotion,
castling-rights and en-passant updates, clock updates, move-history append and
player switch.  none models the IndexError of the en-passant row lookup, the one
exception reachable on an 8 by 8 board, caught by the surrounding bare except. -/
def apply_move_core (cb1 : ChessBoard) (m : Move) : Option ChessBoard :=
  match capture_bookkeeping cb1 m with
  | none => none
  | some (captured, b1) =>
    let piece := boardAt cb1.board m.from_square.1 m.from_square.2
    let b2 :=
      if m.is_castling then
        if m.to_square.1 > m.from_square.1 then
          boardSet (boardSet b1 5 m.from_square.2 (boardAt b1 7 m.from_square.2))
            7 m.from_square.2 Square.blank
        else
          boardSet (boardSet b1 3 m.from_square.2 (boardAt b1 0 m.from_square.2))
            0 m.from_square.2 Square.blank
      else b1
    let b3 := boardSet (boardSet b2 m.to_square.1 m.to_square.2 piece)
      m.from_square.1 m.from_square.2 Square.blank
    let b4 :=
      match m.promotion with
      | some promo => boardSet b3 m.to_square.1 m.to_square.2 ⟨some promo, piece.color⟩
      | none => b3
    some
      { board := b4
        current_player := cb1.current_player.other
        castling_rights := update_castling_rights m cb1.castling_rights
        en_passant_target := ep_target_update m
        halfmove_clock :=
          if piece.piece_type = some .pawn ∨ captured.isSome then 0
          else cb1.halfmove_clock + 1
        fullmove_number :=
          if cb1.current_player = .black then cb1.fullmove_number + 1
          else cb1.fullmove_number
        move_history := m :: cb1.move_history
        position_history := cb1.position_history }

/-- `ChessBoard.make_move`: reject off-board coordinates, an empty source and a
wrong-color source without mutating; otherwise push a snapshot, run the mutating
phase (a caught exception returns false with the snapshot left pushed), and
finally revert through `undo_move` and return false if the mover is left in
check. -/
def make_move (cb : ChessBoard) (m : Move) : Bool × ChessBoard :=
  if ¬ (is_valid_square m.from_square = true ∧ is_valid_square m.to_square = true) then
    (false, cb)
  else
    if (boardAt cb.board m.from_square.1 m.from_square.2).empty = true ∨
        (boardAt cb.board m.from_square.1 m.from_square.2).color ≠
          some cb.current_player then
      (false, cb)
    else
      match apply_move_core (push_snapshot cb) m with
      | none => (false, push_snapshot cb)
      | some cb2 =>
        if is_check cb2 (if cb2.current_player = .white then .black else .white) then
          (false, (undo_move cb2).2)
        else (true, cb2)

/-- The trial loop shared verbatim by `is_checkmate` and `is_stalemate`: some
piece of the color has a pseudo-legal move that a copy of the board accepts and
that leaves the color out of check. -/
def has_any_legal_escape (cb : ChessBoard) (c : Color) : Bool :=
  scanCoords.any fun p =>
    match get_piece cb p with
    | some sq =>
      if ¬ sq.empty ∧ sq.color = some c then
        (bd_pseudo_for_piece cb p sq).any fun m =>
          let res := make_move { cb with current_player := c } m
          res.1 && !(is_check res.2 c)
      else false
    | none => false

/-- `ChessBoard.is_checkmate`: in check and no trial move escapes. -/
def is_checkmate (cb : ChessBoard) (c : Color) : Bool :=
  if ¬ is_check cb c then false else !(has_any_legal_escape cb c)

/-- `ChessBoard.is_stalemate`: not in check and no trial move escapes. -/
def is_stalemate (cb : ChessBoard) (c : Color) : Bool :=
  if is_check cb c then false else !(has_any_legal_escape cb c)

/-- `MoveGenerator._generate_castling_moves`: the body is a TODO comment and the
function returns the empty list unconditionally. -/
def generate_castling_moves (cb : ChessBoard) (sq : Int × Int) (c : Color) :
    List Move :=
  []

/-- `MoveGenerator._generate_pawn_moves`: the forward and capture section of
`_generate_pawn_pseudo_moves` (including the new_rank reassignment quirk, see
bd_pawn_pseudo), followed by the en-passant block and the unconditional
promotion block. -/
def mg_pawn_moves (cb : ChessBoard) (sq : Int × Int) (c : Color) : List Move :=
  let (file, rank) := sq
  let direction : Int := if c = .white then -1 else 1
  let start_rank : Int := if c = .white then 6 else 1
  let new_rank := rank + direction
  let base :=
    if 0 ≤ new_rank ∧ new_rank < 8 then
      let fwdEmpty := (boardAt cb.board file new_rank).empty
      let forward :=
        if fwdEmpty then
          mkMove (file, rank) (file, new_rank) .pawn c none false false false ::
            (let new_rank2 := rank + 2 * direction
             if rank = start_rank ∧ 0 ≤ new_rank2 ∧ new_rank2 < 8 ∧
                 (boardAt cb.board file new_rank2).empty = true then
               [mkMove (file, rank) (file, new_rank2) .pawn c none false false false]
             else [])
        else []
      let cap_rank :=
        if fwdEmpty = true ∧ rank = start_rank then rank + 2 * direction else new_rank
      let captures := ([-1, 1] : List Int).flatMap fun off =>
        let new_file := file + off
        if 0 ≤ new_file ∧ new_file < 8 then
          let target := boardAt cb.board new_file cap_rank
          if ¬ target.empty ∧ target.color ≠ some c then
            [mkMove (file, rank) (new_file, cap_rank) .pawn c none false false true]
          else []
        else []
      forward ++ captures
    else []
  let enPassant :=
    match cb.en_passant_target with
    | some (ep_file, ep_rank) =>
      if (file - ep_file).natAbs = 1 ∧ rank = ep_rank - direction then
        [mkMove (file, rank) (ep_file, ep_rank) .pawn c none false true false]
      else []
    | none => []
  let promotion_rank : Int := if c = .white then 0 else 7
  let promotions :=
    if rank + direction = promotion_rank then
      ([.queen, .rook, .bishop, .knight] : List PieceType).map fun pt =>
        mkMove (file, rank) (file, promotion_rank) .pawn c (some pt) false false false
    else []
  base ++ enPassant ++ promotions

/-- `MoveGenerator._generate_queen_moves`: the rook component is produced by
`_generate_rook_moves`, which hardcodes PieceType.ROOK on the moves it builds,
followed by `_generate_diagonal_moves` with PieceType.QUEEN. -/
def mg_queen_moves (cb : ChessBoard) (sq : Int × Int) (c : Color) : List Move :=
  slidingMoves cb sq c .rook rookDirs ++ slidingMoves cb sq c .queen bishopDirs

/-- `MoveGenerator._generate_king_moves`: the fixed-offset moves followed by the
(stubbed) castling moves. -/
def mg_king_moves (cb : ChessBoard) (sq : Int × Int) (c : Color) : List Move :=
  offsetMoves cb sq c .king kingOffsets ++ generate_castling_moves cb sq c

/-- `MoveGenerator._generate_piece_moves`: dispatch on the piece type. -/
def mg_piece_moves (cb : ChessBoard) (sq : Int × Int) (piece : Square) : List Move :=
  match piece.piece_type, piece.color with
  | some .pawn, some c => mg_pawn_moves cb sq c
  | some .knight, some c => offsetMoves cb sq c .knight knightOffsets
  | some .bishop, some c => slidingMoves cb sq c .bishop bishopDirs
  | some .rook, some c => slidingMoves cb sq c .rook rookDirs
  | some .queen, some c => mg_queen_moves cb sq c
  | some .king, some c => mg_king_moves cb sq c
  | _, _ => []

/-- `MoveGenerator._is_legal_move`: the body is a TODO comment (make the move,
test for check, undo) and the function returns True unconditionally, so no
check filtering happens. -/
def mg_is_legal_move (cb : ChessBoard) (m : Move) : Bool :=
  true

/-- `MoveGenerator.generate_legal_moves`: scan the board rank-major for pieces of
the color, concatenate their piece moves, then filter with `_is_legal_move`
(which is a stub returning True). -/
def generate_legal_moves (cb : ChessBoard) (c : Color) : List Move :=
  let moves := scanCoords.flatMap fun p =>
    match get_piece cb p with
    | some sq => if ¬ sq.empty ∧ sq.color = some c then mg_piece_moves cb p sq else []
    | none => []
  moves.filter fun m => mg_is_legal_move cb m

/-- Whether any piece of the color attacks the target square, by the scan of
`is_check` generalized to an arbitrary target; used to state the castling safety
conditions of the specification. -/
def attacked_by (cb : ChessBoard) (target : Int × Int) (c : Color) : Bool :=
  scanCoords.any fun p =>
    let sq := boardAt cb.board p.1 p.2
    !sq.empty && decide (sq.color = some c) &&
      (match sq.piece_type with
       | some pt => can_piece_attack cb.board pt p target
       | none => false)

/-- An 8 by 8 grid: every position constructed from FEN satisfies this. -/
def boardWF (cb : ChessBoard) : Prop :=
  cb.board.length = 8 ∧ ∀ row ∈ cb.board, row.length = 8

instance (cb : ChessBoard) : Decidable (boardWF cb) := by
  unfold boardWF; infer_instance

/-- Every square stores a piece type exactly when it stores a color, as every
`Square(...)` construction in the source does. -/
def squaresWF (cb : ChessBoard) : Prop :=
  ∀ row ∈ cb.board, ∀ sq ∈ row, sq.piece_type.isSome = sq.color.isSome

instance (cb : ChessBoard) : Decidable (squaresWF cb) := by
  unfold squaresWF; infer_instance

/-- The `material_values` table of EvaluationEngine. -/
def material_value : PieceType → ℚ
  | .pawn => 100
  | .knight => 320
  | .bishop => 330
  | .rook => 500
  | .queen => 900
  | .king => 20000

/-- The piece-square tables of `EvaluationEngine._init_piece_square_tables`,
indexed `table[rank][file]`. -/
def pst : PieceType → List (List Int)
  | .pawn =>
    [[0, 0, 0, 0, 0, 0, 0, 0],
     [50, 50, 50, 50, 50, 50, 50, 50],
     [10, 10, 20, 30, 30, 20, 10, 10],
     [5, 5, 10, 25, 25, 10, 5, 5],
     [0, 0, 0, 20, 20, 0, 0, 0],
     [5, -5, -10, 0, 0, -10, -5, 5],
     [5, 10, 10, -20, -20, 10, 10, 5],
     [0, 0, 0, 0, 0, 0, 0, 0]]
  | .knight =>
    [[-50, -40, -30, -30, -30, -30, -40, -50],
     [-40, -20, 0, 0, 0, 0, -20, -40],
     [-30, 0, 10, 15, 15, 10, 0, -30],
     [-30, 5, 15, 20, 20, 15, 5, -30],
     [-30, 0, 15, 20, 20, 15, 0, -30],
     [-30, 5, 10, 15, 15, 10, 5, -30],
     [-40, -20, 0, 5, 5, 0, -20, -40],
     [-50, -40, -30, -30, -30, -30, -40, -50]]
  | .bishop =>
    [[-20, -10, -10, -10, -10, -10, -10, -20],
     [-10, 0, 0, 0, 0, 0, 0, -10],
     [-10, 0, 5, 10, 10, 5, 0, -10],
     [-10, 5, 5, 10, 10, 5, 5, -10],
     [-10, 0, 10, 10, 10, 10, 0, -10],
     [-10, 10, 10, 10, 10, 10, 10, -10],
     [-10, 5, 0, 0, 0, 0, 5, -10],
     [-20, -10, -10, -10, -10, -10, -10, -20]]
  | .rook =>
    [[0, 0, 0, 0, 0, 0, 0, 0],
     [5, 10, 10, 10, 10, 10, 10, 5],
     [-5, 0, 0, 0, 0, 0, 0, -5],
     [-5, 0, 0, 0, 0, 0, 0, -5],
     [-5, 0, 0, 0, 0, 0, 0, -5],
     [-5, 0, 0, 0, 0, 0, 0, -5],
     [-5, 0, 0, 0, 0, 0, 0, -5],
     [0, 0, 0, 5, 5, 0, 0, 0]]
  | .queen =>
    [[-20, -10, -10, -5, -5, -10, -10, -20],
     [-10, 0, 0, 0, 0, 0, 0, -10],
     [-10, 0, 5, 5, 5, 5, 0, -10],
     [-5, 0, 5, 5, 5, 5, 0, -5],
     [0, 0, 5, 5, 5, 5, 0, -5],
     [-10, 5, 5, 5, 5, 5, 0, -10],
     [-10, 0, 5, 0, 0, 0, 0, -10],
     [-20, -10, -10, -5, -5, -10, -10, -20]]
  | .king =>
    [[-30, -40, -40, -50, -50, -40, -40, -30],
     [-30, -40, -40, -50, -50, -40, -40, -30],
     [-30, -40, -40, -50, -50, -40, -40, -30],
     [-30, -40, -40, -50, -50, -40, -40, -30],
     [-20, -30, -30, -40, -40, -30, -30, -20],
     [-10, -20, -20, -20, -20, -20, -20, -10],
     [20, 20, 0, 0, 0, 0, 20, 20],
     [20, 30, 10, 0, 0, 10, 30, 20]]

/-- The material accumulated for the evaluated color by
`EvaluationEngine._evaluate_material`. -/
def material_own (cb : ChessBoard) (c : Color) : ℚ :=
  (scanCoords.map fun p =>
    let sq := boardAt cb.board p.1 p.2
    if sq.empty = false ∧ sq.color = some c then (sq.piece_type.map material_value).getD 0
    else 0).sum

/-- The material accumulated for the other side by
`EvaluationEngine._evaluate_material`. -/
def material_opp (cb : ChessBoard) (c : Color) : ℚ :=
  (scanCoords.map fun p =>
    let sq := boardAt cb.board p.1 p.2
    if sq.empty = false ∧ sq.color ≠ some c then (sq.piece_type.map material_value).getD 0
    else 0).sum

/-- `EvaluationEngine._evaluate_material`: own material minus opponent material. -/
def evaluate_material (cb : ChessBoard) (c : Color) : ℚ :=
  material_own cb c - material_opp cb c

/-- The piece-square-table value of an occupied square, mirrored vertically for
Black as in `_evaluate_position`. -/
def pst_value (sq : Square) (p : Int × Int) : ℚ :=
  match sq.piece_type with
  | some pt =>
    let r : Int := if sq.color = some .white then p.2 else 7 - p.2
    ((((pst pt)[r.toNat]?).bind fun row => row[p.1.toNat]?).getD 0 : Int)
  | none => 0

/-- The positional score accumulated for the evaluated color by
`EvaluationEngine._evaluate_position`. -/
def position_own (cb : ChessBoard) (c : Color) : ℚ :=
  (scanCoords.map fun p =>
    let sq := boardAt cb.board p.1 p.2
    if sq.empty = false ∧ sq.color = some c then pst_value sq p else 0).sum

/-- The positional score accumulated for the other side by
`EvaluationEngine._evaluate_position`. -/
def position_opp (cb : ChessBoard) (c : Color) : ℚ :=
  (scanCoords.map fun p =>
    let sq := boardAt cb.board p.1 p.2
    if sq.empty = false ∧ sq.color ≠ some c then pst_value sq p else 0).sum

/-- `EvaluationEngine._evaluate_position`: own table score minus the opponent
table score. -/
def evaluate_position (cb : ChessBoard) (c : Color) : ℚ :=
  position_own cb c - position_opp cb c

/-- `EvaluationEngine._evaluate_king_safety`: pawn-shield bonus, early-game
center penalties and the castled-king bonus; -1000 when the king is missing. -/
def evaluate_king_safety (cb : ChessBoard) (c : Color) : ℚ :=
  match find_king cb c with
  | none => -1000
  | some kingPos =>
    let kf := kingPos.1
    let kr := kingPos.2
    let shieldRanks : List Int := if c = .white then [kr - 1, kr - 2] else [kr + 1, kr + 2]
    let shield : ℚ :=
      (([-1, 0, 1] : List Int).map fun off =>
        let sf := kf + off
        if 0 ≤ sf ∧ sf < 8 then
          if shieldRanks.any (fun rc =>
              decide (0 ≤ rc ∧ rc < 8) &&
                (let sq := boardAt cb.board sf rc
                 decide (sq.piece_type = some .pawn ∧ sq.color = some c))) then
            (10 : ℚ)
          else 0
        else 0).sum
    let centerPenalty : ℚ :=
      if cb.move_history.length < 20 then
        (if 2 ≤ kf ∧ kf ≤ 5 then (-20 : ℚ) else 0) +
          (if c = .white ∧ kr > 1 then (-15 : ℚ)
           else if c = .black ∧ kr < 6 then (-15 : ℚ) else 0)
      else 0
    let castlingBonus : ℚ :=
      if c = .white then
        if kingPos = (6, 7) ∨ kingPos = (2, 7) then 30 else 0
      else
        if kingPos = (6, 0) ∨ kingPos = (2, 0) then 30 else 0
    shield + centerPenalty + castlingBonus

/-- The pawns of the evaluated color collected by `_evaluate_pawn_structure`. -/
def own_pawns (cb : ChessBoard) (c : Color) : List (Int × Int) :=
  scanCoords.filter fun p =>
    let sq := boardAt cb.board p.1 p.2
    decide (sq.piece_type = some .pawn ∧ sq.color = some c)

/-- The pawns of the other side collected by `_evaluate_pawn_structure`. -/
def enemy_pawns (cb : ChessBoard) (c : Color) : List (Int × Int) :=
  scanCoords.filter fun p =>
    let sq := boardAt cb.board p.1 p.2
    decide (sq.piece_type = some .pawn ∧ sq.color ≠ some c)

/-- `EvaluationEngine._evaluate_pawn_structure`: per own pawn, the doubled and
isolated penalties, the passed bonus, and the connected-chain bonus. -/
def evaluate_pawn_structure (cb : ChessBoard) (c : Color) : ℚ :=
  let own := own_pawns cb c
  let enemy := enemy_pawns cb c
  (own.map fun pw =>
    let pf := pw.1
    let pr := pw.2
    let doubled_count := (own.filter fun q => q.1 = pf).length
    let doubled : ℚ := if doubled_count > 1 then -10 * ((doubled_count : ℚ) - 1) else 0
    let has_adjacent := ([pf - 1, pf + 1] : List Int).any fun adj =>
      decide (0 ≤ adj ∧ adj < 8) && own.any (fun q => decide (q.1 = adj))
    let isolated : ℚ := if has_adjacent then 0 else -15
    let passed : ℚ :=
      if c = .white then
        if enemy.any (fun e => decide ((e.1 - pf).natAbs ≤ 1 ∧ e.2 < pr)) then 0
        else 20 + ((6 - pr : Int) : ℚ) * 10
      else
        if enemy.any (fun e => decide ((e.1 - pf).natAbs ≤ 1 ∧ e.2 > pr)) then 0
        else 20 + ((pr - 1 : Int) : ℚ) * 10
    let chain : ℚ :=
      (([pf - 1, pf + 1] : List Int).map fun sf =>
        if c = .white then
          if 0 ≤ sf ∧ sf < 8 ∧ pr < 7 ∧ (sf, pr + 1) ∈ own then (5 : ℚ) else 0
        else
          if 0 ≤ sf ∧ sf < 8 ∧ pr > 0 ∧ (sf, pr - 1) ∈ own then (5 : ℚ) else 0).sum
    doubled + isolated + passed + chain).sum

/-- One ray of the sliding mobility count in `_evaluate_mobility`: empty squares
count and continue, an enemy square counts and stops, an own square stops. -/
def countRay (cb : ChessBoard) (sq : Int × Int) (c : Color) (dir : Int × Int) :
    Nat → Int → Nat
  | 0, _ => 0
  | fuel + 1, distance =>
    let nf := sq.1 + dir.1 * distance
    let nr := sq.2 + dir.2 * distance
    if 0 ≤ nf ∧ nf < 8 ∧ 0 ≤ nr ∧ nr < 8 then
      let target := boardAt cb.board nf nr
      if target.empty then 1 + countRay cb sq c dir fuel (distance + 1)
      else if target.color ≠ some c then 1
      else 0
    else 0

/-- The mobility count of one piece over a direction set (range(1, 8) per ray). -/
def countSliding (cb : ChessBoard) (sq : Int × Int) (c : Color)
    (dirs : List (Int × Int)) : Nat :=
  (dirs.map fun dir => countRay cb sq c dir 7 1).sum

/-- `EvaluationEngine._evaluate_mobility`: weighted pseudo-destination counts,
knight times 2, bishop times 1.5, rook times 1, queen times 0.5; pawns and kings
contribute nothing. -/
def evaluate_mobility (cb : ChessBoard) (c : Color) : ℚ :=
  (scanCoords.map fun p =>
    let sq := boardAt cb.board p.1 p.2
    if sq.empty = false ∧ sq.color = some c then
      match sq.piece_type with
      | some .knight =>
        ((knightOffsets.filter fun off =>
          let nf := p.1 + off.1
          let nr := p.2 + off.2
          decide (0 ≤ nf ∧ nf < 8 ∧ 0 ≤ nr ∧ nr < 8) &&
            (let target := boardAt cb.board nf nr
             target.empty || decide (target.color ≠ some c))).length : ℚ) * 2
      | some .bishop => (countSliding cb p c bishopDirs : ℚ) * (3 / 2)
      | some .rook => (countSliding cb p c rookDirs : ℚ) * 1
      | some .queen => (countSliding cb p c queenDirs : ℚ) * (1 / 2)
      | _ => 0
    else 0).sum

/-- The four central squares d4, d5, e4, e5 of `_evaluate_center_control`. -/
def centerSquares : List (Int × Int) := [(3, 3), (3, 4), (4, 3), (4, 4)]

/-- `EvaluationEngine._evaluate_center_control`: occupation bonus of +10 own and
-5 opponent on the four central squares, plus twice the net attacker count on
the empty central squares (the attacker scan runs rank-major over every
occupied square). -/
def evaluate_center_control (cb : ChessBoard) (c : Color) : ℚ :=
  let occupation : ℚ :=
    (centerSquares.map fun p =>
      let sq := boardAt cb.board p.1 p.2
      if sq.empty = false then (if sq.color = some c then (10 : ℚ) else -5) else 0).sum
  let control : ℚ :=
    (centerSquares.map fun p =>
      let sq := boardAt cb.board p.1 p.2
      if sq.empty then
        let counts := scanCoords.foldl (fun acc q =>
          let piece := boardAt cb.board q.1 q.2
          if piece.empty = false then
            match piece.piece_type with
            | some pt =>
              if can_piece_attack cb.board pt q p then
                if piece.color = some c then (acc.1 + 1, acc.2) else (acc.1, acc.2 + 1)
              else acc
            | none => acc
          else acc) ((0 : Int), (0 : Int))
        ((counts.1 - counts.2 : Int) : ℚ) * 2
      else 0).sum
  occupation + control

/-- The minor-piece home squares checked by `_evaluate_development`. -/
def developmentChecks (c : Color) : List ((Int × Int) × PieceType) :=
  let back_rank : Int := if c = .white then 7 else 0
  [((1, back_rank), .knight), ((6, back_rank), .knight),
   ((2, back_rank), .bishop), ((5, back_rank), .bishop)]

/-- `EvaluationEngine._evaluate_development`: zero after 30 recorded moves,
otherwise -5 per undeveloped minor piece and +20 for a castled king. -/
def evaluate_development (cb : ChessBoard) (c : Color) : ℚ :=
  if cb.move_history.length > 30 then 0
  else
    let undeveloped : ℚ :=
      ((developmentChecks c).map fun chk =>
        let sq := boardAt cb.board chk.1.1 chk.1.2
        if sq.empty = false ∧ sq.piece_type = some chk.2 ∧ sq.color = some c then
          (-5 : ℚ)
        else 0).sum
    let castled : ℚ :=
      match find_king cb c with
      | some kp =>
        if c = .white then
          if kp = (6, 7) ∨ kp = (2, 7) then 20 else 0
        else
          if kp = (6, 0) ∨ kp = (2, 0) then 20 else 0
      | none => 0
    undeveloped + castled

/-- `EvaluationEngine._evaluate_tempo`: +5 when this color is to move, plus ten
times the fraction of its pieces off their starting squares. -/
def evaluate_tempo (cb : ChessBoard) (c : Color) : ℚ :=
  let base : ℚ := if cb.current_player = c then 5 else 0
  let counts := scanCoords.foldl (fun acc p =>
    let sq := boardAt cb.board p.1 p.2
    if sq.empty = false ∧ sq.color = some c then
      let starting :=
        if c = .white then
          p.2 = 7 ∨ (p.2 = 6 ∧ sq.piece_type = some .pawn)
        else
          p.2 = 0 ∨ (p.2 = 1 ∧ sq.piece_type = some .pawn)
      (acc.1 + (if starting then 0 else 1), acc.2 + 1)
    else acc) ((0 : Nat), (0 : Nat))
  if counts.2 > 0 then base + ((counts.1 : ℚ) / (counts.2 : ℚ)) * 10 else base

/-- The evaluation weight dictionary; `_load_weights` defaults every key to 1.0. -/
structure EvalWeights where
  material : ℚ
  position : ℚ
  king_safety : ℚ
  pawn_structure : ℚ
  mobility : ℚ
  center_control : ℚ
  development : ℚ
  tempo : ℚ
deriving DecidableEq, Repr

/-- The default weights of `EvaluationEngine._load_weights`. -/
def default_weights : EvalWeights :=
  ⟨1, 1, 1, 1, 1, 1, 1, 1⟩

/-- The result of `EvaluationEngine.evaluate`: the two infinities of the
checkmate short circuits, or a finite score. -/
inductive EvalScore
  | neg_inf
  | pos_inf
  | val (q : ℚ)
deriving DecidableEq, Repr

/-- Negation of an evaluation result, for stating the antisymmetry property. -/
def EvalScore.neg : EvalScore → EvalScore
  | .neg_inf => .pos_inf
  | .pos_inf => .neg_inf
  | .val q => .val (-q)

/-- `EvaluationEngine.evaluate`: the checkmate and stalemate short circuits
followed by the weighted sum of the eight terms. -/
def evaluate (w : EvalWeights) (cb : ChessBoard) (c : Color) : EvalScore :=
  if is_checkmate cb c then .neg_inf
  else if is_checkmate cb c.other then .pos_inf
  else if is_stalemate cb c then .val 0
  else
    .val
      (evaluate_material cb c * w.material +
       evaluate_position cb c * w.position +
       evaluate_king_safety cb c * w.king_safety +
       evaluate_pawn_structure cb c * w.pawn_structure +
       evaluate_mobility cb c * w.mobility +
       evaluate_center_control cb c * w.center_control +
       evaluate_development cb c * w.development +
       evaluate_tempo cb c * w.tempo)

/-- The top-level names defined by chess_engine/search/transposition.py. -/
def transpositionModuleNames : List String :=
  ["NodeType", "TranspositionEntry", "TranspositionTable"]

/-- A `from .transposition import name` statement: succeeds exactly when the
module defines the name, otherwise raises ImportError. -/
def importFromTransposition (name : String) : Except String Unit :=
  if name ∈ transpositionModuleNames then .ok () else .error "ImportError"

/-- `MinimaxEngine.__init__`: after the plain field assignments it executes
`from .transposition import LRUTranspositionTable` before constructing the
table, so the import outcome decides whether construction succeeds. -/
def minimax_engine_init (max_depth : Nat) (time_limit : ℚ) : Except String Unit := do
  importFromTransposition "LRUTranspositionTable"
  pure ()

/-- chess_engine/search/__init__.py: imports MinimaxEngine and QuiescenceSearch
(whose module-level imports succeed), then executes
`from .transposition import LRUTranspositionTable, TranspositionEntry`. -/
def search_package_init : Except String Unit := do
  importFromTransposition "LRUTranspositionTable"
  importFromTransposition "TranspositionEntry"
  pure ()

/-- The standard starting FEN of section 8 of the specification. -/
def start_fen : String := "rnbqkbnr/pppppppp/8/8/8/8/PPPPPPPP/RNBQKBNR w KQkq - 0 1"

/-- Fallback value for extracting a parsed board (never reached on the concrete
FEN strings below, whose parses are proved to succeed). -/
def fallback_board : ChessBoard :=
  ⟨[], .white, ⟨false, false, false, false⟩, none, 0, 1, [], []⟩

/-- The starting position. -/
def start_board : ChessBoard := (chess_board_from_fen start_fen).getD fallback_board

/-- The double pawn push e2e4 as the move generator emits it. -/
def e2e4_move : Move := mkMove (4, 6) (4, 4) .pawn .white none false false false

/-- White rook a2, white king a1, black rook a8, black king h8: the white rook
on a2 is pinned against the a-file. -/
def pin_board : ChessBoard :=
  (chess_board_from_fen "r6k/8/8/8/8/8/R7/K7 w - - 0 1").getD fallback_board

/-- Rook a2 to b2, stepping out of the pin and exposing the white king. -/
def pin_break_move : Move :=
  { from_square := (0, 6), to_square := (1, 6), piece_type := .rook, color := .white }

/-- White rook a2, white king h1, black king h8: the only black piece is a far
away king, so no white move can leave White in check. -/
def lone_rook_board : ChessBoard :=
  (chess_board_from_fen "7k/8/8/8/8/8/R7/7K w - - 0 1").getD fallback_board

/-- Rook a2 to a1 carrying a fabricated en-passant flag: its captured-pawn row
to_rank + 1 = 8 is off the board. -/
def bad_ep_move : Move :=
  { from_square := (0, 6), to_square := (0, 7), piece_type := .rook, color := .white
    is_en_passant := true }

/-- Kings and rooks on their home squares, full castling rights, everything in
between empty: both white castling moves are legal by the rules of section 4.2
of the specification. -/
def castling_ready_board : ChessBoard :=
  (chess_board_from_fen "r3k2r/8/8/8/8/8/8/R3K2R w KQkq - 0 1").getD fallback_board

/-- White pawn a4, white king h1, black king h8. -/
def lone_pawn_board : ChessBoard :=
  (chess_board_from_fen "7k/8/8/8/P7/8/8/7K w - - 0 1").getD fallback_board

/-- The white pawn moved two ranks backwards, from a4 to a2: a fabricated but
accepted move that is not a two-square pawn advance. -/
def backwards_double_move : Move :=
  { from_square := (0, 4), to_square := (0, 6), piece_type := .pawn, color := .white }

/-- A board with no pieces at all, hence no king of either color. -/
def kingless_board : ChessBoard :=
  (chess_board_from_fen "8/8/8/8/8/8/8/8 w - - 0 1").getD fallback_board

end ChessEngine

namespace ChessEngine

/-- C4: constructing a ChessBoard from the standard starting FEN string and
serializing it back yields the exact same string. -/
theorem fen_roundtrip_start :
    (chess_board_from_fen start_fen).map get_fen = some start_fen := by
  decide

/-- C5: on the standard starting position the move generator returns exactly 20
moves for White: 16 pawn moves (one single and one double push per pawn, 8 of
each) and 4 knight moves. -/
theorem start_position_twenty_moves :
    (generate_legal_moves start_board .white).length = 20 ∧
    ((generate_legal_moves start_board .white).filter
      (fun m => decide (m.piece_type = .pawn))).length = 16 ∧
    ((generate_legal_moves start_board .white).filter
      (fun m => decide (m.piece_type = .pawn ∧
        (m.to_square.2 - m.from_square.2).natAbs = 1))).length = 8 ∧
    ((generate_legal_moves start_board .white).filter
      (fun m => decide (m.piece_type = .pawn ∧
        (m.to_square.2 - m.from_square.2).natAbs = 2))).length = 8 ∧
    ((generate_legal_moves start_board .white).filter
      (fun m => decide (m.piece_type = .knight))).length = 4 := by
  decide

/-- C1: the check filter of the move generator is a stub, so
generate_legal_moves returns a move that exposes the own king: on pin_board
White is not in check, the pinned-rook move a2b2 is in the returned sequence,
and make_move itself rejects exactly that move because it leaves the white king
in check. -/
theorem legal_moves_contain_king_exposing_move :
    is_check pin_board .white = false ∧
    pin_break_move ∈ generate_legal_moves pin_board .white ∧
    make_move pin_board pin_break_move = (false, pin_board) := by
  decide

/-- C7: on castling_ready_board every specification condition for white
castling holds (rights set, king and rooks at home, empty path, king not in
check, path squares not attacked), yet the returned sequence contains no
castling move and no two-square king move, because the castling generator is a
stub returning the empty list. -/
theorem castling_moves_never_generated :
    castling_ready_board.castling_rights.K = true ∧
    castling_ready_board.castling_rights.Q = true ∧
    boardAt castling_ready_board.board 4 7 = mkSquare .king .white ∧
    boardAt castling_ready_board.board 0 7 = mkSquare .rook .white ∧
    boardAt castling_ready_board.board 7 7 = mkSquare .rook .white ∧
    (boardAt castling_ready_board.board 5 7).empty = true ∧
    (boardAt castling_ready_board.board 6 7).empty = true ∧
    (boardAt castling_ready_board.board 1 7).empty = true ∧
    (boardAt castling_ready_board.board 2 7).empty = true ∧
    (boardAt castling_ready_board.board 3 7).empty = true ∧
    is_check castling_ready_board .white = false ∧
    attacked_by castling_ready_board (5, 7) .black = false ∧
    attacked_by castling_ready_board (6, 7) .black = false ∧
    attacked_by castling_ready_board (3, 7) .black = false ∧
    attacked_by castling_ready_board (2, 7) .black = false ∧
    (generate_legal_moves castling_ready_board .white).all
      (fun m => !m.is_castling) = true ∧
    (generate_legal_moves castling_ready_board .white).all
      (fun m => !(decide (m.piece_type = .king) &&
        (decide (m.to_square = ((6 : Int), (7 : Int))) ||
         decide (m.to_square = ((2 : Int), (7 : Int)))))) = true := by
  decide

/-- C9: MinimaxEngine construction imports LRUTranspositionTable from the
transposition module, which defines no such name, so it raises ImportError for
every argument pair, and the search package initializer fails the same way. -/
theorem minimax_engine_unconstructible :
    (∀ (max_depth : Nat) (time_limit : ℚ),
      minimax_engine_init max_depth time_limit = .error "ImportError") ∧
    search_package_init = .error "ImportError" :=
  ⟨fun _ _ => rfl, rfl⟩

/-- C2 counterexample: a move with on-board coordinates whose source square
holds the moving side own rook, whose application cannot leave the white king
in check (the applied board is not in check and Black has only a bare king),
yet make_move returns false, and the resulting state differs from the original
by the orphan snapshot left on position_history. -/
theorem make_move_false_with_mutation :
    is_valid_square bad_ep_move.from_square = true ∧
    is_valid_square bad_ep_move.to_square = true ∧
    boardAt lone_rook_board.board 0 6 = mkSquare .rook .white ∧
    lone_rook_board.current_player = .white ∧
    is_check { lone_rook_board with
      board := boardSet (boardSet lone_rook_board.board 0 7 (mkSquare .rook .white))
        0 6 Square.blank } .white = false ∧
    make_move lone_rook_board bad_ep_move = (false, push_snapshot lone_rook_board) ∧
    push_snapshot lone_rook_board ≠ lone_rook_board := by
  decide

/-- The starting position is neither checkmate nor stalemate for either color,
so evaluate reaches its weighted sum. -/
lemma start_board_not_terminal :
    is_checkmate start_board .white = false ∧ is_checkmate start_board .black = false ∧
    is_stalemate start_board .white = false ∧ is_stalemate start_board .black = false := by
  decide

attribute [local semireducible] Rat.add Rat.mul Rat.sub Rat.inv in
/-- The eight evaluation terms of White at the starting position. -/
lemma start_board_terms_white :
    evaluate_material start_board .white = 0 ∧
    evaluate_position start_board .white = 0 ∧
    evaluate_king_safety start_board .white = -5 ∧
    evaluate_pawn_structure start_board .white = 0 ∧
    evaluate_mobility start_board .white = 8 ∧
    evaluate_center_control start_board .white = 0 ∧
    evaluate_development start_board .white = -20 ∧
    evaluate_tempo start_board .white = 5 := by
  decide

attribute [local semireducible] Rat.add Rat.mul Rat.sub Rat.inv in
/-- The eight evaluation terms of Black at the starting position: identical to
White except for the absent tempo bonus. -/
lemma start_board_terms_black :
    evaluate_material start_board .black = 0 ∧
    evaluate_position start_board .black = 0 ∧
    evaluate_king_safety start_board .black = -5 ∧
    evaluate_pawn_structure start_board .black = 0 ∧
    evaluate_mobility start_board .black = 8 ∧
    evaluate_center_control start_board .black = 0 ∧
    evaluate_development start_board .black = -20 ∧
    evaluate_tempo start_board .black = 0 := by
  decide

/-- C6 counterexample: on the starting position the evaluation of White is -12
and of Black is -17, so evaluate(p, White) differs from -evaluate(p, Black) by
exactly 5 (the one-sided tempo bonus), far beyond floating tolerance. -/
theorem evaluate_not_antisymmetric_at_start :
    evaluate default_weights start_board .white = .val (-12) ∧
    evaluate default_weights start_board .black = .val (-17) ∧
    evaluate default_weights start_board .white ≠
      (evaluate default_weights start_board .black).neg := by
  obtain ⟨hcw, hcb, hsw, hsb⟩ := start_board_not_terminal
  obtain ⟨w1, w2, w3, w4, w5, w6, w7, w8⟩ := start_board_terms_white
  obtain ⟨b1, b2, b3, b4, b5, b6, b7, b8⟩ := start_board_terms_black
  have hw : evaluate default_weights start_board .white = .val (-12) := by
    simp [evaluate, Color.other, hcw, hcb, hsw, w1, w2, w3, w4, w5, w6, w7, w8,
      default_weights]
    norm_num
  have hb : evaluate default_weights start_board .black = .val (-17) := by
    simp [evaluate, Color.other, hcw, hcb, hsb, b1, b2, b3, b4, b5, b6, b7, b8,
      default_weights]
    norm_num
  refine ⟨hw, hb, ?_⟩
  rw [hw, hb]
  simp [EvalScore.neg]
  norm_num

/-- C8 counterexample: make_move accepts the fabricated backwards double pawn
move a4a2 (not a two-square pawn advance) and afterwards en_passant_target is
set to (0, 7), the a1 square, which is not the square skipped by any advance. -/
theorem en_passant_target_set_by_backwards_move :
    (make_move lone_pawn_board backwards_double_move).1 = true ∧
    (make_move lone_pawn_board backwards_double_move).2.en_passant_target =
      some (0, 7) ∧
    backwards_double_move.color = .white ∧
    backwards_double_move.to_square.2 = backwards_double_move.from_square.2 + 2 := by
  decide

/-- The mutating phase only appends the move to move_history, leaves
position_history untouched, switches the player and writes the fresh en-passant
target. -/
lemma apply_move_core_fields (cb1 : ChessBoard) (m : Move) (x : ChessBoard)
    (h : apply_move_core cb1 m = some x) :
    x.current_player = cb1.current_player.other ∧
    x.en_passant_target = ep_target_update m ∧
    x.move_history = m :: cb1.move_history ∧
    x.position_history = cb1.position_history := by
  unfold apply_move_core at h
  cases hstep : capture_bookkeeping cb1 m with
  | none =>
    rw [hstep] at h
    exact absurd h (by simp)
  | some pr =>
    obtain ⟨captured, b1⟩ := pr
    rw [hstep] at h
    obtain rfl := Option.some.inj h
    exact ⟨rfl, rfl, rfl, rfl⟩

/-- Undoing right after a successful mutating phase restores the original
position exactly (the pushed snapshot holds every field of the state before the
move). -/
lemma undo_after_core (cb : ChessBoard) (m : Move) (x : ChessBoard)
    (h : apply_move_core (push_snapshot cb) m = some x) :
    undo_move x = (true, cb) := by
  obtain ⟨-, -, hmh, hph⟩ := apply_move_core_fields _ _ _ h
  obtain ⟨b, cp, cr, ep, hc, fn, mh, ph⟩ := x
  simp only [push_snapshot] at hmh hph
  subst hmh
  subst hph
  rfl

/-- C3: every accepted make_move is undone by undo_move, which returns true and
restores the position exactly (board grid, side to move, castling rights,
en-passant target, halfmove clock, fullmove number and both history stacks, so
in particular the FEN string is restored); undo_move on a position with no
applied moves returns false. -/
theorem make_move_undo_roundtrip :
    (∀ (cb : ChessBoard) (m : Move) (cb2 : ChessBoard),
      make_move cb m = (true, cb2) → undo_move cb2 = (true, cb)) ∧
    (∀ cb : ChessBoard, cb.move_history = [] → undo_move cb = (false, cb)) := by
  constructor
  · intro cb m cb2 h
    unfold make_move at h
    split at h
    · exact absurd h (by simp)
    · split at h
      · exact absurd h (by simp)
      · split at h
        · exact absurd h (by simp)
        · rename_i x heq
          split at h <;> split at h
          all_goals injection h with h1 h2
          any_goals exact Bool.noConfusion h1
          all_goals subst h2
          all_goals exact undo_after_core cb m x heq
  · intro cb h
    obtain ⟨b, cp, cr, ep, hc, fn, mh, ph⟩ := cb
    simp only at h
    subst h
    cases ph <;> rfl

/-- C3 witness: applying e2e4 to the starting position succeeds, undoing it
returns true and yields the starting position again, and undoing on the fresh
starting position returns false. -/
theorem make_move_undo_roundtrip_witness :
    undo_move (make_move start_board e2e4_move).2 = (true, start_board) ∧
    undo_move start_board = (false, start_board) :=
  ⟨make_move_undo_roundtrip.1 start_board e2e4_move
      (make_move start_board e2e4_move).2 (by decide),
   make_move_undo_roundtrip.2 start_board (by decide)⟩

/-- C10: when no square of the board holds a king of the color, is_check
returns false (the scan finds no king and the function returns early), and
consequently is_checkmate also returns false. -/
theorem no_king_no_check (cb : ChessBoard) (c : Color)
    (h : ∀ p ∈ scanCoords,
      ¬((boardAt cb.board p.1 p.2).piece_type = some .king ∧
        (boardAt cb.board p.1 p.2).color = some c)) :
    is_check cb c = false ∧ is_checkmate cb c = false := by
  have hk : find_king cb c = none := by
    rw [find_king, List.find?_eq_none]
    intro p hp
    simpa using h p hp
  have hc : is_check cb c = false := by
    rw [is_check, hk]
  refine ⟨hc, ?_⟩
  rw [is_checkmate, hc]
  simp

/-- C10 witness: the empty board has no king of either color, so neither check
nor checkmate is reported for White. -/
theorem no_king_no_check_witness :
    is_check kingless_board .white = false ∧
    is_checkmate kingless_board .white = false :=
  no_king_no_check kingless_board .white (by decide)

end ChessEngine

namespace ChessEngine

/-- The en-passant target written by an accepted move, as a single conditional
on the move fields. -/
lemma ep_target_update_eq (m : Move) :
    ep_target_update m =
      if m.piece_type = .pawn ∧ (m.to_square.2 - m.from_square.2).natAbs = 2 then
        some (m.to_square.1, m.to_square.2 + if m.color = .white then 1 else -1)
      else none := by
  unfold ep_target_update
  by_cases h1 : m.piece_type = PieceType.pawn <;>
    by_cases h2 : (m.to_square.2 - m.from_square.2).natAbs = 2 <;>
    by_cases h3 : m.color = Color.white <;>
    simp [h1, h2, h3] <;> omega

/-- C8 (amended): after every accepted make_move, en_passant_target is
non-empty exactly when the moved piece type is pawn and the move changed rank by
two in either direction (the code does not require a straight forward advance),
and then it is the square one rank behind the destination from the perspective
of the move color field, which is the skipped square for a genuine double
advance; every other accepted move clears it. -/
theorem accepted_move_sets_ep_target (cb : ChessBoard) (m : Move)
    (res : ChessBoard) (h : make_move cb m = (true, res)) :
    res.en_passant_target =
      if m.piece_type = .pawn ∧ (m.to_square.2 - m.from_square.2).natAbs = 2 then
        some (m.to_square.1, m.to_square.2 + if m.color = .white then 1 else -1)
      else none := by
  unfold make_move at h
  split at h
  · exact absurd h (by simp)
  · split at h
    · exact absurd h (by simp)
    · split at h
      · exact absurd h (by simp)
      · rename_i x heq
        split at h <;> split at h
        all_goals injection h with h1 h2
        any_goals exact Bool.noConfusion h1
        all_goals subst h2
        all_goals
          obtain ⟨-, hep, -, -⟩ := apply_move_core_fields _ _ _ heq
        all_goals rw [hep, ep_target_update_eq]

/-- C8 witness: e2e4 from the starting position is accepted and writes the
en-passant target e3, the square the double push skipped. -/
theorem accepted_move_sets_ep_target_witness :
    (make_move start_board e2e4_move).2.en_passant_target = some (4, 5) := by
  rw [accepted_move_sets_ep_target start_board e2e4_move
    (make_move start_board e2e4_move).2 (by decide)]
  decide

/-- Every square reachable through boardAt satisfies the piece-color coupling
when the board does. -/
lemma boardAt_consistent (cb : ChessBoard) (h : squaresWF cb) (f r : Int) :
    (boardAt cb.board f r).piece_type.isSome = (boardAt cb.board f r).color.isSome := by
  unfold boardAt
  split
  · cases hb : cb.board[r.toNat]? with
    | none => simp [hb, Square.blank]
    | some row =>
      cases hf : row[f.toNat]? with
      | none => simp [hb, hf, Square.blank]
      | some sq =>
        have hrow : row ∈ cb.board := List.getElem?_mem hb
        have hsq : sq ∈ row := List.getElem?_mem hf
        simpa [hb, hf] using h row hrow sq hsq
  · rfl

/-- On a consistent square the own-side condition at one color is the
other-side condition at the opposite color: the two accumulators of the
material and position loops swap under color flip. -/
lemma square_side_flip :
    ∀ (sq : Square) (c : Color), sq.piece_type.isSome = sq.color.isSome →
      ((sq.empty = false ∧ sq.color = some c) ↔
       (sq.empty = false ∧ sq.color ≠ some c.other)) := by
  decide

/-- Flipping the color turns the own-material accumulator into the
opponent-material accumulator. -/
lemma material_own_flip (cb : ChessBoard) (hw : squaresWF cb) (c : Color) :
    material_own cb c = material_opp cb c.other := by
  unfold material_own material_opp
  congr 1
  refine List.map_congr_left ?_
  intro p hp
  exact if_congr
    (square_side_flip (boardAt cb.board p.1 p.2) c (boardAt_consistent cb hw p.1 p.2))
    rfl rfl

/-- The opposite color is an involution. -/
lemma color_other_other (c : Color) : c.other.other = c := by
  cases c <;> rfl

/-- Flipping the color turns the opponent-material accumulator into the
own-material accumulator. -/
lemma material_opp_flip (cb : ChessBoard) (hw : squaresWF cb) (c : Color) :
    material_opp cb c = material_own cb c.other := by
  have h := material_own_flip cb hw c.other
  rw [color_other_other] at h
  exact h.symm

/-- Flipping the color turns the own-position accumulator into the
opponent-position accumulator. -/
lemma position_own_flip (cb : ChessBoard) (hw : squaresWF cb) (c : Color) :
    position_own cb c = position_opp cb c.other := by
  unfold position_own position_opp
  congr 1
  refine List.map_congr_left ?_
  intro p hp
  exact if_congr
    (square_side_flip (boardAt cb.board p.1 p.2) c (boardAt_consistent cb hw p.1 p.2))
    rfl rfl

/-- Flipping the color turns the opponent-position accumulator into the
own-position accumulator. -/
lemma position_opp_flip (cb : ChessBoard) (hw : squaresWF cb) (c : Color) :
    position_opp cb c = position_own cb c.other := by
  have h := position_own_flip cb hw c.other
  rw [color_other_other] at h
  exact h.symm

/-- C6 (amended): the full evaluate is not antisymmetric (see the starting
position counterexample), but the material and piece-square terms are: for
every position whose squares couple piece type and color (as every square
constructed by the source does) and every color, each of these two terms
negates under color flip. -/
theorem material_position_antisymmetric (cb : ChessBoard) (c : Color)
    (h : squaresWF cb) :
    evaluate_material cb c = -evaluate_material cb c.other ∧
    evaluate_position cb c = -evaluate_position cb c.other := by
  constructor
  · unfold evaluate_material
    rw [material_own_flip cb h c, material_opp_flip cb h c]
    ring
  · unfold evaluate_position
    rw [position_own_flip cb h c, position_opp_flip cb h c]
    ring

/-- C6 amended witness: on the starting position the material and position
terms of White equal the negation of those of Black. -/
theorem material_position_antisymmetric_witness :
    evaluate_material start_board .white = -evaluate_material start_board .black ∧
    evaluate_position start_board .white = -evaluate_position start_board .black :=
  material_position_antisymmetric start_board .white (by decide)

end ChessEngine

namespace ChessEngine

/-- Every rank index below 8 resolves to a length-8 row on a well-formed board. -/
lemma board_row_fact (b : List (List Square)) (hlen : b.length = 8)
    (hrows : ∀ row ∈ b, row.length = 8) (i : Nat) (hi : i < 8) :
    ∃ row, b[i]? = some row ∧ row.length = 8 := by
  have h : i < b.length := by omega
  exact ⟨b[i], List.getElem?_eq_getElem h, hrows _ (b.getElem_mem h)⟩

/-- On a well-formed board and an on-board destination square, the en-passant
capture lookup raises exactly for White moving to rank 7 (the captured-pawn row
to_rank + 1 = 8 is past the end; the Black rank to_rank - 1 = -1 wraps to row 7
under Python indexing instead of raising). -/
lemma ep_capture_step_none_iff (cb1 : ChessBoard) (m : Move)
    (hlen : cb1.board.length = 8) (hrows : ∀ row ∈ cb1.board, row.length = 8)
    (htf0 : 0 ≤ m.to_square.1) (htf8 : m.to_square.1 < 8)
    (htr0 : 0 ≤ m.to_square.2) (htr8 : m.to_square.2 < 8) :
    (ep_capture_step cb1 m = none ↔
      cb1.current_player = .white ∧ m.to_square.2 = 7) := by
  unfold ep_capture_step
  cases hcol : cb1.current_player with
  | white =>
    by_cases h7 : m.to_square.2 = 7
    · have hnone : pyIndex cb1.board.length (m.to_square.2 + 1) = none := by
        unfold pyIndex
        rw [hlen, if_neg (by omega), if_neg (by omega)]
      have hif : (if (Color.white = Color.white) then m.to_square.2 + 1
          else m.to_square.2 - 1) = m.to_square.2 + 1 := if_pos rfl
      rw [hif, hnone]
      simp [h7]
    · have hidx : pyIndex cb1.board.length (m.to_square.2 + 1) =
          some (m.to_square.2 + 1).toNat := by
        unfold pyIndex
        rw [hlen, if_pos (by omega)]
      have hlt : (m.to_square.2 + 1).toNat < 8 := by omega
      obtain ⟨row, hrow, hrlen⟩ := board_row_fact cb1.board hlen hrows _ hlt
      have hfidx : pyIndex row.length m.to_square.1 = some m.to_square.1.toNat := by
        unfold pyIndex
        rw [hrlen, if_pos (by omega)]
      have hflt : m.to_square.1.toNat < row.length := by omega
      have hsq : row[m.to_square.1.toNat]? = some row[m.to_square.1.toNat] :=
        List.getElem?_eq_getElem hflt
      have hif : (if (Color.white = Color.white) then m.to_square.2 + 1
          else m.to_square.2 - 1) = m.to_square.2 + 1 := if_pos rfl
      rw [hif, hidx]
      dsimp only
      rw [hrow]
      dsimp only
      rw [hfidx]
      dsimp only
      rw [hsq]
      simp [h7]
  | black =>
    by_cases h0 : m.to_square.2 = 0
    · have hidx : pyIndex cb1.board.length (m.to_square.2 - 1) = some 7 := by
        unfold pyIndex
        rw [hlen, if_neg (by omega), if_pos (by omega)]
        congr 1
        omega
      obtain ⟨row, hrow, hrlen⟩ := board_row_fact cb1.board hlen hrows 7 (by omega)
      have hfidx : pyIndex row.length m.to_square.1 = some m.to_square.1.toNat := by
        unfold pyIndex
        rw [hrlen, if_pos (by omega)]
      have hflt : m.to_square.1.toNat < row.length := by omega
      have hsq : row[m.to_square.1.toNat]? = some row[m.to_square.1.toNat] :=
        List.getElem?_eq_getElem hflt
      have hif : (if (Color.black = Color.white) then m.to_square.2 + 1
          else m.to_square.2 - 1) = m.to_square.2 - 1 := if_neg (by decide)
      rw [hif, hidx]
      dsimp only
      rw [hrow]
      dsimp only
      rw [hfidx]
      dsimp only
      rw [hsq]
      simp
    · have hidx : pyIndex cb1.board.length (m.to_square.2 - 1) =
          some (m.to_square.2 - 1).toNat := by
        unfold pyIndex
        rw [hlen, if_pos (by omega)]
      have hlt : (m.to_square.2 - 1).toNat < 8 := by omega
      obtain ⟨row, hrow, hrlen⟩ := board_row_fact cb1.board hlen hrows _ hlt
      have hfidx : pyIndex row.length m.to_square.1 = some m.to_square.1.toNat := by
        unfold pyIndex
        rw [hrlen, if_pos (by omega)]
      have hflt : m.to_square.1.toNat < row.length := by omega
      have hsq : row[m.to_square.1.toNat]? = some row[m.to_square.1.toNat] :=
        List.getElem?_eq_getElem hflt
      have hif : (if (Color.black = Color.white) then m.to_square.2 + 1
          else m.to_square.2 - 1) = m.to_square.2 - 1 := if_neg (by decide)
      rw [hif, hidx]
      dsimp only
      rw [hrow]
      dsimp only
      rw [hfidx]
      dsimp only
      rw [hsq]
      simp

/-- The mutating phase fails exactly for an en-passant-flagged move by White
with destination rank 7, on a well-formed board with an on-board destination. -/
lemma apply_move_core_none_iff (cb : ChessBoard) (m : Move) (hwf : boardWF cb)
    (htf0 : 0 ≤ m.to_square.1) (htf8 : m.to_square.1 < 8)
    (htr0 : 0 ≤ m.to_square.2) (htr8 : m.to_square.2 < 8) :
    (apply_move_core (push_snapshot cb) m = none ↔
      m.is_en_passant = true ∧ cb.current_player = .white ∧ m.to_square.2 = 7) := by
  have hstepiff : (ep_capture_step (push_snapshot cb) m = none ↔
      cb.current_player = .white ∧ m.to_square.2 = 7) := by
    have h := ep_capture_step_none_iff (push_snapshot cb) m hwf.1 hwf.2
      htf0 htf8 htr0 htr8
    simpa [push_snapshot] using h
  unfold apply_move_core
  cases hstep : capture_bookkeeping (push_snapshot cb) m with
  | none =>
    unfold capture_bookkeeping at hstep
    by_cases hep : m.is_en_passant
    · rw [if_pos hep] at hstep
      have hepnone : ep_capture_step (push_snapshot cb) m = none := by
        cases ho : ep_capture_step (push_snapshot cb) m with
        | none => rfl
        | some pr => rw [ho] at hstep; exact absurd hstep (by simp)
      have h2 := hstepiff.mp hepnone
      simp [hep, h2.1, h2.2]
    · rw [if_neg hep] at hstep
      split at hstep <;> exact absurd hstep (by simp)
  | some pr =>
    obtain ⟨captured, b1⟩ := pr
    constructor
    · intro hx
      exact absurd hx (by simp)
    · rintro ⟨hep, hw, h7⟩
      have hepnone : ep_capture_step (push_snapshot cb) m = none :=
        hstepiff.mpr ⟨hw, h7⟩
      have : capture_bookkeeping (push_snapshot cb) m = none := by
        unfold capture_bookkeeping
        rw [if_pos hep, hepnone]
        rfl
      rw [this] at hstep
      exact absurd hstep (by simp)

/-- C2 (amended): make_move rejects, leaving the position unchanged, a move
with an off-board coordinate, an empty source square, or a source piece of the
non-moving side; with those checks passed, the one caught-exception case -- an
en-passant-flagged move by White to rank 7, whose captured-pawn row lookup is
past the board -- returns false with the pre-move snapshot left pushed on
position_history (all other fields unchanged); in every other case make_move
returns false with the position fully unchanged when the applied move leaves
the mover in check, and returns true otherwise. -/
theorem make_move_contract (cb : ChessBoard) (m : Move) (hwf : boardWF cb) :
    (¬(is_valid_square m.from_square = true ∧ is_valid_square m.to_square = true) →
      make_move cb m = (false, cb)) ∧
    ((is_valid_square m.from_square = true ∧ is_valid_square m.to_square = true) →
      (((boardAt cb.board m.from_square.1 m.from_square.2).empty = true ∨
          (boardAt cb.board m.from_square.1 m.from_square.2).color ≠
            some cb.current_player) →
        make_move cb m = (false, cb)) ∧
      (((boardAt cb.board m.from_square.1 m.from_square.2).empty = false ∧
          (boardAt cb.board m.from_square.1 m.from_square.2).color =
            some cb.current_player) →
        ((apply_move_core (push_snapshot cb) m = none ↔
            m.is_en_passant = true ∧ cb.current_player = .white ∧
              m.to_square.2 = 7) ∧
         (apply_move_core (push_snapshot cb) m = none →
            make_move cb m = (false, push_snapshot cb)) ∧
         (∀ cb2, apply_move_core (push_snapshot cb) m = some cb2 →
            (is_check cb2 cb.current_player = true →
              make_move cb m = (false, cb)) ∧
            (is_check cb2 cb.current_player = false →
              make_move cb m = (true, cb2)))))) := by
  refine ⟨?_, fun hv => ⟨?_, fun hsrc => ⟨?_, ?_, ?_⟩⟩⟩
  · intro hnv
    unfold make_move
    rw [if_pos hnv]
  · intro hbad
    unfold make_move
    rw [if_neg (not_not_intro hv), if_pos hbad]
  · have hts := of_decide_eq_true hv.2
    exact apply_move_core_none_iff cb m hwf hts.1 hts.2.1 hts.2.2.1 hts.2.2.2
  · intro hnone
    unfold make_move
    rw [if_neg (not_not_intro hv), if_neg (by simp [hsrc.1, hsrc.2]), hnone]
  · intro cb2 hsome
    have hplayer : cb2.current_player = cb.current_player.other :=
      (apply_move_core_fields _ _ _ hsome).1
    have hgatearg :
        (if cb2.current_player = Color.white then Color.black else Color.white) =
          cb.current_player := by
      rw [hplayer]
      cases cb.current_player <;> simp [Color.other]
    have hundo : (undo_move cb2).2 = cb := by
      rw [undo_after_core cb m cb2 hsome]
    constructor
    · intro hchk
      unfold make_move
      rw [if_neg (not_not_intro hv), if_neg (by simp [hsrc.1, hsrc.2]), hsome]
      dsimp only
      rw [hgatearg, if_pos hchk, hundo]
    · intro hchk
      unfold make_move
      rw [if_neg (not_not_intro hv), if_neg (by simp [hsrc.1, hsrc.2]), hsome]
      dsimp only
      rw [hgatearg, if_neg (by simp [hchk])]

/-- An off-board source coordinate. -/
def off_board_move : Move := mkMove (-1, 0) (0, 0) .pawn .white none false false false

/-- C2 witness: the contract applied concretely, on the accepted branch to e2e4
from the starting position and on the rejected branch to an off-board move. -/
theorem make_move_contract_witness :
    make_move start_board e2e4_move = (true, (make_move start_board e2e4_move).2) ∧
    make_move start_board off_board_move = (false, start_board) := by
  constructor
  · have h := make_move_contract start_board e2e4_move (by decide)
    have h2 := (h.2 (by decide)).2 (by decide)
    exact (h2.2.2 ((make_move start_board e2e4_move).2) (by decide)).2 (by decide)
  · exact (make_move_contract start_board off_board_move (by decide)).1 (by decide)

end ChessEngine
